import Mathlib

/-!
# Verification of the teamresumes agent orchestration and security subsystem

Shallow embedding of the two core modules of the repository:

* `.agent-os/sub-agents/agent_coordinator.py` — the `AgentCoordinator` workflow
  scheduler (sequential / parallel / mixed execution, conditional gating,
  inter-step data propagation, report compilation);
* `.agent-os/sub-agents/security_framework.py` — the `SecurityFramework`
  session / permission / file-lock machinery.

Modelling conventions:

* Python dicts that preserve insertion order are modelled as association lists
  (`List (String × Value)` etc.) with `dictSet` mirroring `d[k] = v` (update in
  place keeps the key's position; a new key is appended) and `List.lookup`
  mirroring `d[k]` / `k in d`.
* The numeric values reached by `float(...)` in condition evaluation are
  modelled as rationals `ℚ` (the decimal literals of the repository are exact
  in both).  Wall-clock instants (`time.time()`) are modelled as integers `ℤ`:
  the code uses clock values only through subtraction and order comparison,
  and every claim depends only on whether a timeout has elapsed, which the
  integral model expresses faithfully.
* Exceptions are modelled with `Option` / `Except String` (`none` / `.error msg`
  is a raised exception); a caught exception is a `match` on that value.
* Wall-clock reads within a single API call are modelled as a single instant
  `now` passed explicitly.
* Logging (`logger.*`) and the audit trail (`_log_audit_event`, `audit_log`)
  are pure observers of no claim and are not modelled; likewise report
  timestamps / ids / durations.
* The thread pools of the parallel paths are modelled deterministically: a
  dispatched batch reads the context as it was when the batch was submitted,
  and results are collected in submission order (the source collects them in
  completion order; every property proved below is insensitive to the order
  within one batch).
-/

namespace TeamResumes

/-- JSON-ish values that flow through `shared_data`, agent result payloads and
condition evaluation.  The repository's payloads are numbers, strings and
string-keyed dicts. -/
inductive Value : Type where
  | num (q : ℚ)
  | str (s : String)
  | dict (kvs : List (String × Value))
deriving Repr

/-- Python dict assignment `d[k] = v` on an insertion-ordered association list:
an existing key keeps its position, a new key is appended.  Used for
`shared_data`, parameter dicts, the session table and the lock table. -/
def pyDictSet {α : Type} (d : List (String × α)) (k : String) (v : α) :
    List (String × α) :=
  if (d.lookup k).isSome then
    d.map (fun p => if p.1 = k then (k, v) else p)
  else
    d ++ [(k, v)]

/-- `pyDictSet` at `Value` (the `shared_data` / parameter dicts). -/
def dictSet (d : List (String × Value)) (k : String) (v : Value) :
    List (String × Value) :=
  pyDictSet d k v

/-- Python `str.strip(chars)` for `chars = "'\""`: drop leading and trailing
quote characters (used by `_extract_value`). -/
def stripQuotes (s : String) : String :=
  let isQ : Char → Bool := fun c => c = '\'' || c = '"'
  String.mk ((s.toList.dropWhile isQ).reverse.dropWhile isQ).reverse

/-- Python `str.strip()`: drop leading and trailing whitespace.  (Defined over
the character list so that proofs can evaluate it by kernel reduction.) -/
def pyStrip (s : String) : String :=
  String.mk ((s.toList.dropWhile Char.isWhitespace).reverse.dropWhile
    Char.isWhitespace).reverse

/-- Locate the first occurrence of `sep` in `s`, returning the characters
before it and the characters after it. -/
def findSplit (sep : List Char) : List Char → Option (List Char × List Char)
  | [] => none
  | c :: rest =>
    if sep.isPrefixOf (c :: rest) then some ([], (c :: rest).drop sep.length)
    else
      match findSplit sep rest with
      | some (pre, post) => some (c :: pre, post)
      | none => none

/-- Python `s.split(sep, 1)`: the part before the first occurrence of `sep`
and the remainder after it (later occurrences included). -/
def pySplitOnce (s sep : String) : String × String :=
  match findSplit sep.toList s.toList with
  | some (pre, post) => (String.mk pre, String.mk post)
  | none => (s, "")

/-- Python `sep in s` (substring membership; for a one-character `sep` this is
character membership). -/
def containsSub (s sep : String) : Bool :=
  (findSplit sep.toList s.toList).isSome

/-- Python `s.startswith(p)`. -/
def strStartsWith (s p : String) : Bool :=
  p.toList.isPrefixOf s.toList

/-- Python `s.endswith(p)`. -/
def strEndsWith (s p : String) : Bool :=
  p.toList.reverse.isPrefixOf s.toList.reverse

/-- Digit-string to natural number; `none` if empty or a non-digit occurs. -/
def parseDigits : List Char → Option Nat
  | [] => none
  | cs =>
    cs.foldl (fun acc c =>
      match acc with
      | none => none
      | some n => if c.isDigit then some (n * 10 + (c.toNat - '0'.toNat)) else none)
      (some 0)

/-- Model of Python's `float(s)` on a string, restricted to plain decimal
literals: optional surrounding whitespace, optional sign, digits with an
optional single decimal point (`"80"`, `"90.5"`, `".5"`, `"7."`).  Exponents,
`inf`/`nan` and underscore separators do not occur in this repository and are
not modelled; every non-numeric string is `none` (Python raises `ValueError`
there). -/
def pyFloat (s : String) : Option ℚ :=
  let t := (pyStrip s).toList
  let (neg, body) :=
    match t with
    | '-' :: rest => (true, rest)
    | '+' :: rest => (false, rest)
    | rest => (false, rest)
  let signed : ℚ → ℚ := fun q => if neg then -q else q
  match body.span (· ≠ '.') with
  | (intPart, []) =>
    match parseDigits intPart with
    | some n => some (signed (mkRat n 1))
    | none => none
  | (intPart, _dot :: fracPart) =>
    if fracPart.contains '.' then none
    else if intPart.isEmpty && fracPart.isEmpty then none
    else
      let intVal : Option Nat := if intPart.isEmpty then some 0 else parseDigits intPart
      let fracVal : Option Nat := if fracPart.isEmpty then some 0 else parseDigits fracPart
      match intVal, fracVal with
      | some i, some f =>
        some (signed (mkRat (i * 10 ^ fracPart.length + f) (10 ^ fracPart.length)))
      | _, _ => none

/-- `AgentCoordinator._extract_value(expression, variables)`: strip quotes, try
a numeric literal, then an exact variable match (unwrapping a dict that repeats
the key), then the first variable whose dict value contains the expression as a
key, and finally fall back to the expression itself as a string. -/
def extractValue (expression : String) (vars : List (String × Value)) : Value :=
  let expr := stripQuotes expression
  match pyFloat expr with
  | some q => Value.num q
  | none =>
    match vars.lookup expr with
    | some varValue =>
      match varValue with
      | Value.dict kvs =>
        match kvs.lookup expr with
        | some inner => inner
        | none => varValue
      | _ => varValue
    | none =>
      match vars.find? (fun p =>
          match p.2 with
          | Value.dict kvs => (kvs.lookup expr).isSome
          | _ => false) with
      | some p =>
        match p.2 with
        | Value.dict kvs => (kvs.lookup expr).getD (Value.str expr)
        | _ => Value.str expr
      | none => Value.str expr

/-- Python `float(v)` applied to an extracted value: identity on numbers,
string parse on strings, and a raised `TypeError` (`none`) on dicts. -/
def valueToFloat : Value → Option ℚ
  | Value.num q => some q
  | Value.str s => pyFloat s
  | Value.dict _ => none

/-- Python `str(v)` applied to an extracted value, used only by the `==`
branch of condition evaluation.  The repr of a float is abstracted as the
repr of the rational; no claim exercises this branch on numbers. -/
def valueStr : Value → String
  | Value.num q => toString q
  | Value.str s => s
  | Value.dict _ => "<dict>"

/-- `AgentCoordinator._evaluate_condition(condition, context)` over the run's
`shared_data`.  `some b` is a normal return, `none` a raised exception (the
`float` conversions can raise; `_should_execute_step` catches that and
defaults to executing). -/
def evaluateCondition (condition : String) (sharedData : List (String × Value)) :
    Option Bool :=
  if containsSub condition "<" then
    let (left, right) := pySplitOnce condition "<"
    let leftVal := extractValue (pyStrip left) sharedData
    let rightVal := extractValue (pyStrip right) sharedData
    match valueToFloat leftVal, valueToFloat rightVal with
    | some a, some b => some (a < b)
    | _, _ => none
  else if containsSub condition ">" then
    let (left, right) := pySplitOnce condition ">"
    let leftVal := extractValue (pyStrip left) sharedData
    let rightVal := extractValue (pyStrip right) sharedData
    match valueToFloat leftVal, valueToFloat rightVal with
    | some a, some b => some (a > b)
    | _, _ => none
  else if containsSub condition "==" then
    let (left, right) := pySplitOnce condition "=="
    let leftVal := extractValue (pyStrip left) sharedData
    let rightVal := extractValue (pyStrip right) sharedData
    some (valueStr leftVal = valueStr rightVal)
  else
    some true

/-! ## Workflow scheduler (`AgentCoordinator`) -/

/-- The fields of a workflow step that `_execute_single_agent_step` and
`_should_execute_step` read.  `agent = none` models a step without an
`'agent'` key; `depends_on` given as a plain string in YAML is modelled as a
singleton list (the code wraps it the same way). -/
structure StepCore where
  agent : Option String := none
  action : String := "default"
  parameters : List (String × Value) := []
  output_key : Option String := none
  input_from : Option String := none
  depends_on : List String := []
  condition : Option String := none
  parallel : Bool := false

/-- A top-level workflow step: the core fields plus the group form
(`group = true` models the presence of a `'group'` key, whose member steps are
`agents`; `_execute_group_step` reads only the core fields of each member). -/
structure Step extends StepCore where
  group : Bool := false
  agents : List StepCore := []

/-- A workflow definition, reduced to the fields `execute_workflow` reads.
`execType` is `workflow.get('execution', {'type': 'sequential'}).get('type',
'sequential')`; `max_concurrent` only sizes a thread pool and plays no role in
the deterministic model. -/
structure Workflow where
  name : String := "unnamed"
  execType : String := "sequential"
  steps : List Step := []
  context : List (String × Value) := []

/-- What `_execute_agent` (or a monkey-patched replacement, as in the
repository's tests) returns: a result dict with a `status`, an optional
`results` payload and an optional `error` message. -/
structure AgentPayload where
  status : String := "success"
  results : Value := Value.dict []
  error : Option String := none
deriving Repr

/-- The agent-execution callable.  `_execute_agent` receives the agent name,
the action and the assembled parameters; `.error msg` models a raised
exception (caught by `_execute_single_agent_step`). -/
def AgentExec : Type :=
  Option String → String → List (String × Value) → Except String AgentPayload

/-- One entry of `agent_results`: the result dict built by
`_execute_single_agent_step` (timestamps omitted). -/
structure AgentResult where
  agent : Option String
  action : String
  status : String
  results : Value := Value.dict []
  error : Option String := none
deriving Repr

/-- One entry of the run's `errors` list (timestamps omitted). -/
structure ErrorEntry where
  etype : String
  message : String
  step : Option Nat := none
  agent : Option (Option String) := none
deriving Repr

/-- The mutable execution context threaded through a run. -/
structure ExecCtx where
  context : List (String × Value) := []
  shared_data : List (String × Value) := []
  agent_results : List AgentResult := []
  errors : List ErrorEntry := []
deriving Repr

/-- `AgentCoordinator._should_execute_step`: dependency gate (every
`depends_on` entry must name the agent of a recorded successful result), then
the condition gate (a condition whose evaluation raises defaults to `true`). -/
def shouldExecuteStep (step : StepCore) (ctx : ExecCtx) : Bool :=
  let completed := (ctx.agent_results.filter (fun r => r.status = "success")).map
    (fun r => r.agent)
  if step.depends_on.all (fun d => completed.contains (some d)) then
    match step.condition with
    | some condition =>
      match evaluateCondition condition ctx.shared_data with
      | some b => b
      | none => true
    | none => true
  else
    false

/-- `AgentCoordinator._execute_single_agent_step`: assemble the parameters
(shared run context under `'context'` when non-empty, the `input_from` datum
when present in `shared_data`), call the agent, and turn a raised exception
into an `'error'` result. -/
def executeSingleAgentStep (exec : AgentExec) (step : StepCore) (ctx : ExecCtx) :
    AgentResult :=
  let params := step.parameters
  let params :=
    if ctx.context.isEmpty then params
    else dictSet params "context" (Value.dict ctx.context)
  let params :=
    match step.input_from with
    | some inputKey =>
      match ctx.shared_data.lookup inputKey with
      | some v => dictSet params inputKey v
      | none => params
    | none => params
  match exec step.agent step.action params with
  | Except.ok payload =>
    { agent := step.agent, action := step.action, status := payload.status,
      results := payload.results, error := payload.error }
  | Except.error msg =>
    { agent := step.agent, action := step.action, status := "error",
      error := some msg }

/-- Append a result and, when the step has an `output_key` and the result
succeeded, store its payload in `shared_data` (the collection code shared by
the parallel paths of `_execute_parallel` / `_execute_parallel_group`). -/
def collectResult (step : StepCore) (result : AgentResult) (ctx : ExecCtx) : ExecCtx :=
  let ctx := { ctx with agent_results := ctx.agent_results ++ [result] }
  match step.output_key with
  | some outputKey =>
    if result.status = "success" then
      { ctx with shared_data := dictSet ctx.shared_data outputKey result.results }
    else ctx
  | none => ctx

/-- `AgentCoordinator._execute_group_step`: run the group's members (the
parallel and sequential branches coincide in the deterministic model — members
read the group-entry context and results are appended in member order);
exceptions of single members would be turned into error results, but
`_execute_single_agent_step` already catches them. -/
def executeGroupStep (exec : AgentExec) (step : Step) (ctx : ExecCtx) :
    List AgentResult :=
  if step.parallel then
    step.agents.map (fun agentStep => executeSingleAgentStep exec agentStep ctx)
  else
    step.agents.map (fun agentStep => executeSingleAgentStep exec agentStep ctx)

/-- `AgentCoordinator._execute_sequential`, one step at a time from step index
`i`.  An agent step appends its result, records an `agent_error` when the
result's status is `'error'`, and propagates its payload under `output_key` on
success; a group step appends the group's results as a block.  (The per-step
`try/except` of the source can only fire on exceptions that the modelled
fragment already converts to error results, so no `step_error` entry arises in
the model.) -/
def executeSequential (exec : AgentExec) : List Step → Nat → ExecCtx → ExecCtx
  | [], _, ctx => ctx
  | step :: rest, i, ctx =>
    let ctx' :=
      if ¬ shouldExecuteStep step.toStepCore ctx then ctx
      else
        match step.agent with
        | some _ =>
          let result := executeSingleAgentStep exec step.toStepCore ctx
          let ctx := { ctx with agent_results := ctx.agent_results ++ [result] }
          let ctx :=
            if result.status = "error" then
              { ctx with errors := ctx.errors ++
                [{ etype := "agent_error", step := some i, agent := some result.agent,
                   message := result.error.getD "Unknown agent error" }] }
            else ctx
          match step.output_key with
          | some outputKey =>
            if result.status = "success" then
              { ctx with shared_data := dictSet ctx.shared_data outputKey result.results }
            else ctx
          | none => ctx
        | none =>
          if step.group then
            { ctx with agent_results := ctx.agent_results ++ executeGroupStep exec step ctx }
          else ctx
    executeSequential exec rest (i + 1) ctx'

/-- `AgentCoordinator._execute_parallel`: filter the steps whose gate passes
(against the initial context), submit the agent steps, and collect each
result.  Each dispatched step reads the pre-batch context. -/
def executeParallel (exec : AgentExec) (steps : List Step) (ctx : ExecCtx) :
    ExecCtx :=
  let executable := steps.filter (fun step => shouldExecuteStep step.toStepCore ctx)
  let submitted := executable.filter (fun step => step.agent.isSome)
  submitted.foldl
    (fun acc step =>
      collectResult step.toStepCore (executeSingleAgentStep exec step.toStepCore ctx) acc)
    ctx

/-- The look-ahead of `_execute_mixed`: collect the run of consecutive
`parallel: true` steps that follows the batch head, keeping those whose gate
passes (checked against the context at batch time). -/
def collectParallelRun (ctx : ExecCtx) : List Step → List Step
  | [] => []
  | step :: rest =>
    if step.parallel then
      (if shouldExecuteStep step.toStepCore ctx then [step] else []) ++
        collectParallelRun ctx rest
    else []

/-- `AgentCoordinator._execute_parallel_group`: submit the agent steps of the
batch and collect each result; every dispatched step reads the batch-entry
context. -/
def executeParallelGroup (exec : AgentExec) (steps : List Step) (ctx : ExecCtx) :
    ExecCtx :=
  let submitted := steps.filter (fun step => step.agent.isSome)
  submitted.foldl
    (fun acc step =>
      collectResult step.toStepCore (executeSingleAgentStep exec step.toStepCore ctx) acc)
    ctx

/-- `AgentCoordinator._execute_mixed`.  The source iterates
`for i, step in enumerate(steps)`; after dispatching a batch it assigns
`i = j - 1` intending to resume past the batch, but reassigning the loop
variable of a Python `for` over `enumerate` has no effect on the iteration, so
the scan continues at `i + 1` regardless — the model reproduces exactly that
behaviour. -/
def executeMixed (exec : AgentExec) : List Step → ExecCtx → ExecCtx
  | [], ctx => ctx
  | step :: rest, ctx =>
    let ctx' :=
      if ¬ shouldExecuteStep step.toStepCore ctx then ctx
      else if step.parallel then
        executeParallelGroup exec (step :: collectParallelRun ctx rest) ctx
      else
        match step.agent with
        | some _ =>
          let result := executeSingleAgentStep exec step.toStepCore ctx
          let ctx := { ctx with agent_results := ctx.agent_results ++ [result] }
          match step.output_key with
          | some outputKey =>
            if result.status = "success" then
              { ctx with shared_data := dictSet ctx.shared_data outputKey result.results }
            else ctx
          | none => ctx
        | none => ctx
    executeMixed exec rest ctx'

/-- The final report compiled by `execute_workflow` (ids, timestamps and
duration omitted). -/
structure ExecutionReport where
  workflow_name : String
  status : String
  agent_results : List AgentResult
  errors : List ErrorEntry
  shared_data : List (String × Value)
deriving Repr

/-- The status computation of `execute_workflow`: `'partial_failure'` when
errors were recorded and `agent_results` is non-empty (Python truthiness of
the list), `'failed'` when errors were recorded and no result was collected,
`'completed'` otherwise. -/
def finalStatus (ctx : ExecCtx) : String :=
  if ¬ ctx.errors.isEmpty then
    if ¬ ctx.agent_results.isEmpty then "partial_failure" else "failed"
  else "completed"

/-- The status callback: invoked with phase strings; `.error` models a raised
exception inside the callable. -/
def StatusCallback : Type := String → Except String Unit

/-- A callback that never raises (also the model of passing no callback: an
absent callback and a well-behaved one are indistinguishable to the run). -/
def noopCallback : StatusCallback := fun _ => Except.ok ()

/-- `AgentCoordinator.execute_workflow`.  The `'initializing'` callback fires
before the `try` block, so its exception propagates; the `'running'` and
final-status callbacks fire inside the `try`, so their exceptions are caught as
a `workflow_error` (after which the `'failed'` callback fires inside the
`except` handler, where an exception again propagates).  The initial context is
`context or workflow.get('context', {})` — Python `or`, so an empty explicit
context also falls back to the workflow's own. -/
def executeWorkflow (exec : AgentExec) (workflow : Workflow)
    (statusCallback : StatusCallback) (context : Option (List (String × Value))) :
    Except String ExecutionReport :=
  let effectiveContext :=
    match context with
    | some c => if c.isEmpty then workflow.context else c
    | none => workflow.context
  let ctx0 : ExecCtx := { context := effectiveContext }
  match statusCallback "initializing" with
  | Except.error e => Except.error e
  | Except.ok _ =>
    let (ctx1, outcome) :=
      match statusCallback "running" with
      | Except.error msg => (ctx0, Except.error msg)
      | Except.ok _ =>
        let afterRun : Option ExecCtx :=
          if workflow.execType = "sequential" then
            some (executeSequential exec workflow.steps 0 ctx0)
          else if workflow.execType = "parallel" then
            some (executeParallel exec workflow.steps ctx0)
          else if workflow.execType = "mixed" then
            some (executeMixed exec workflow.steps ctx0)
          else none
        match afterRun with
        | none => (ctx0, Except.error ("Unknown execution type: " ++ workflow.execType))
        | some ctx' =>
          let status := finalStatus ctx'
          match statusCallback status with
          | Except.error msg => (ctx', Except.error msg)
          | Except.ok _ => (ctx', Except.ok status)
    match outcome with
    | Except.ok status =>
      Except.ok { workflow_name := workflow.name, status := status,
                  agent_results := ctx1.agent_results, errors := ctx1.errors,
                  shared_data := ctx1.shared_data }
    | Except.error msg =>
      let ctx2 := { ctx1 with errors := ctx1.errors ++
        [({ etype := "workflow_error", message := msg } : ErrorEntry)] }
      match statusCallback "failed" with
      | Except.error e => Except.error e
      | Except.ok _ =>
        Except.ok { workflow_name := workflow.name, status := "failed",
                    agent_results := ctx2.agent_results, errors := ctx2.errors,
                    shared_data := ctx2.shared_data }

/-! ## Security framework (`SecurityFramework`) -/

/-- `PermissionType`. -/
inductive PermissionType : Type where
  | read
  | write
  | execute
deriving DecidableEq, Repr

/-- `PermissionType.value`. -/
def PermissionType.value : PermissionType → String
  | .read => "read"
  | .write => "write"
  | .execute => "execute"

/-- A recorded `SecurityViolation`. -/
structure SecurityViolation where
  agent_name : String
  violation_type : String
  attempted_action : String
  file_path : String
  timestamp : ℤ
  details : String
deriving Repr, DecidableEq

/-- An `AgentSession` row of the active-session table. -/
structure AgentSession where
  agent_name : String
  start_time : ℤ
  operations_count : Nat
  files_accessed : List String
  last_activity : ℤ
  max_operations : Nat
  timeout : ℤ
deriving Repr, DecidableEq

/-- The capability configuration consumed by the framework: the permission
glob lists, `security.sandbox_mode` / `security.timeout` and
`behavior.max_operations`, with the source's defaults. -/
structure AgentConfig where
  read_patterns : List String := []
  write_patterns : List String := []
  execute_patterns : List String := []
  sandbox_mode : Bool := true
  timeout : ℤ := 300
  max_operations : Nat := 50
deriving Repr

/-- `permissions.get(operation.value, [])`. -/
def AgentConfig.patternsFor (config : AgentConfig) : PermissionType → List String
  | .read => config.read_patterns
  | .write => config.write_patterns
  | .execute => config.execute_patterns

/-- The mutable state of one `SecurityFramework` instance (the audit log is
logging-only and not modelled). -/
structure SecState where
  active_sessions : List (String × AgentSession) := []
  file_locks : List (String × String) := []
  violations : List SecurityViolation := []
deriving Repr, DecidableEq

/-- Dict assignment for the session table (same semantics as `dictSet`). -/
def setSession (sessions : List (String × AgentSession)) (sid : String)
    (session : AgentSession) : List (String × AgentSession) :=
  pyDictSet sessions sid session

/-- Dict assignment for the lock table. -/
def setLock (locks : List (String × String)) (path holder : String) :
    List (String × String) :=
  pyDictSet locks path holder

/-- `SecurityFramework._record_violation` (the parallel audit event is
logging-only). -/
def recordViolation (st : SecState) (now : ℤ) (agent_name violation_type
    attempted_action file_path details : String) : SecState :=
  { st with violations := st.violations ++
      [{ agent_name := agent_name, violation_type := violation_type,
         attempted_action := attempted_action, file_path := file_path,
         timestamp := now, details := details }] }

/-- `str(Path(p).as_posix())` on POSIX for the repository's relative paths:
duplicate and trailing slashes collapse and single-dot components vanish; the
empty path is `'.'`. -/
def asPosix (p : String) : String :=
  let comps := (p.toList.foldr
    (fun c (acc : List (List Char) × List Char) =>
      if c = '/' then (acc.2 :: acc.1, []) else (acc.1, c :: acc.2))
    ([], [])) |> (fun acc => acc.2 :: acc.1)
  let comps := comps.filter (fun comp => ¬ comp.isEmpty ∧ comp ≠ ['.'])
  if comps.isEmpty then "." else
    String.mk ((comps.map (fun comp => comp ++ ['/'])).flatten.dropLast)

/-- Modelled from the path normalization of `check_permission` (lines
112–121): `(project_root / file_path).resolve().relative_to(project_root)` for
symlink-free paths — `none` when the path is absolute or its `..` components
climb out of the project root (Python raises `ValueError`/`OSError`, recorded
as `path_traversal_attempt`), otherwise the normalized root-relative path. -/
def normalizeRel (p : String) : Option String :=
  if strStartsWith p "/" then none
  else
    let comps := ((asPosix p).toList.foldr
      (fun c (acc : List (List Char) × List Char) =>
        if c = '/' then (acc.2 :: acc.1, []) else (acc.1, c :: acc.2))
      ([], [])) |> (fun acc => acc.2 :: acc.1)
    let comps := comps.filter (fun comp => ¬ comp.isEmpty ∧ comp ≠ ['.'])
    let reduced := comps.foldl
      (fun (acc : Option (List (List Char))) comp =>
        match acc with
        | none => none
        | some stack =>
          if comp = ['.', '.'] then
            match stack with
            | [] => none
            | _ => some stack.dropLast
          else some (stack ++ [comp]))
      (some [])
    match reduced with
    | none => none
    | some [] => some "."
    | some stack =>
      some (String.mk ((stack.map (fun comp => comp ++ ['/'])).flatten.dropLast))

/-- `SecurityFramework._is_path_in_sandbox`: restricted roots win, then the
allow-list, then bare root-level filenames with an allowed extension. -/
def isPathInSandbox (path : String) : Bool :=
  let pathStr := String.mk (path.toList.map (fun c => if c = '\\' then '/' else c))
  let allowedRoots := ["cv/", "docs/", "dev_tools/", ".agent-os/", ".claude/",
    "temp/", "generated-content/", "README.md", "CLAUDE.md"]
  let restrictedRoots := [".git/", "node_modules/", "__pycache__/", ".env"]
  if restrictedRoots.any (fun root => strStartsWith pathStr root) then false
  else if allowedRoots.any (fun root => strStartsWith pathStr root) then true
  else if ¬ containsSub pathStr "/" &&
      [".md", ".py", ".bat", ".css", ".yaml"].any (fun ext => strEndsWith pathStr ext) then
    true
  else false

/-- A string (as a character list) together with all of its suffixes, longest
first. -/
def tailsList : List Char → List (List Char)
  | [] => [[]]
  | c :: cs => (c :: cs) :: tailsList cs

/-- `fnmatch.fnmatch` (POSIX, so no case normalization) for the glob forms
the repository's configurations use: `*` matches any character sequence
(including `/`, as `fnmatch` translates `*` to `.*`), `?` any single
character, other characters literally.  (`*` consuming an arbitrary portion of
the input is expressed structurally: the rest of the pattern must match some
suffix.)  Bracket character classes do not occur in the repository and are not
modelled. -/
def globMatch : List Char → List Char → Bool
  | [], cs => cs.isEmpty
  | '*' :: ps, cs => (tailsList cs).any (fun t => globMatch ps t)
  | '?' :: ps, _ :: cs => globMatch ps cs
  | '?' :: _, [] => false
  | p :: ps, c :: cs => p = c && globMatch ps cs
  | _ :: _, [] => false

/-- `SecurityFramework._matches_patterns`. -/
def matchesPatterns (file_path : String) (patterns : List String) : Bool :=
  patterns.any (fun pat => globMatch pat.toList file_path.toList)

/-- `SecurityFramework._acquire_file_lock`: refuse when a different agent
holds the lock, otherwise (re)claim it. -/
def acquireFileLock (st : SecState) (file_path agent_name : String) :
    Bool × SecState :=
  let normalized_path := asPosix file_path
  match st.file_locks.lookup normalized_path with
  | some current_holder =>
    if current_holder ≠ agent_name then (false, st)
    else (true, { st with file_locks := setLock st.file_locks normalized_path agent_name })
  | none =>
    (true, { st with file_locks := setLock st.file_locks normalized_path agent_name })

/-- `SecurityFramework.release_file_lock`: remove the entry when held by the
caller; refuse when held by another agent; succeed vacuously when no lock on
the path exists (`return True  # No lock to release`). -/
def release_file_lock (st : SecState) (file_path agent_name : String) :
    Bool × SecState :=
  match st.file_locks.lookup (asPosix file_path) with
  | some holder =>
    if holder = agent_name then
      (true, { st with file_locks := st.file_locks.filter (fun p => p.1 ≠ asPosix file_path) })
    else (false, st)
  | none => (true, st)

/-- `SecurityFramework.end_session`: no-op on an unknown id; otherwise release
every lock whose holder is the session's agent and delete the session. -/
def end_session (st : SecState) (session_id : String) : SecState :=
  match st.active_sessions.lookup session_id with
  | none => st
  | some session =>
    let agent_name := session.agent_name
    let locks_to_release :=
      (st.file_locks.filter (fun p => p.2 = agent_name)).map (fun p => p.1)
    let st1 := locks_to_release.foldl
      (fun acc path => (release_file_lock acc path agent_name).2) st
    { st1 with active_sessions :=
        st1.active_sessions.filter (fun p => p.1 ≠ session_id) }

/-- `SecurityFramework._validate_session`: unknown ids fail; a session whose
inactivity exceeds its timeout is auto-ended (`end_session`) and fails;
otherwise the session is valid.  The returned state carries the auto-end. -/
def validateSession (st : SecState) (now : ℤ) (session_id : String) :
    Bool × SecState :=
  match st.active_sessions.lookup session_id with
  | none => (false, st)
  | some session =>
    if now - session.last_activity > session.timeout then
      (false, end_session st session_id)
    else (true, st)

/-- `SecurityFramework.create_session`: register a fresh session under the
given id (the id itself is an opaque hash in the source, supplied here by the
caller) with the configuration's ceilings and both clocks at `now`. -/
def create_session (st : SecState) (now : ℤ) (session_id agent_name : String)
    (config : AgentConfig) : SecState :=
  let session : AgentSession :=
    { agent_name := agent_name, start_time := now, operations_count := 0,
      files_accessed := [], last_activity := now,
      max_operations := config.max_operations, timeout := config.timeout }
  { st with active_sessions := setSession st.active_sessions session_id session }

/-- The gate sequence of `check_permission` after session validation: refresh
activity and increment the operation counter, then operation ceiling, path
normalization, sandbox, permission patterns, and (for writes) the file lock;
on success record the accessed path in the session. -/
def checkGates (st : SecState) (now : ℤ) (session_id : String)
    (session : AgentSession) (operation : PermissionType) (file_path : String)
    (config : AgentConfig) : Bool × SecState :=
  let agent_name := session.agent_name
  let session :=
    { session with last_activity := now, operations_count := session.operations_count + 1 }
  let st := { st with active_sessions := setSession st.active_sessions session_id session }
  if session.operations_count > session.max_operations then
    (false, recordViolation st now agent_name "operation_limit_exceeded"
      (operation.value ++ " " ++ file_path) file_path
      ("Exceeded max operations limit: " ++ toString session.max_operations))
  else
    match normalizeRel file_path with
    | none =>
      (false, recordViolation st now agent_name "path_traversal_attempt"
        (operation.value ++ " " ++ file_path) file_path
        "Attempted to access file outside project root")
    | some relative_path =>
      if config.sandbox_mode && !(isPathInSandbox relative_path) then
        (false, recordViolation st now agent_name "sandbox_violation"
          (operation.value ++ " " ++ file_path) file_path
          "Attempted to access file outside sandbox")
      else if !(matchesPatterns relative_path (config.patternsFor operation)) then
        (false, recordViolation st now agent_name "permission_denied"
          (operation.value ++ " " ++ file_path) file_path
          ("No " ++ operation.value ++ " permission for this file pattern"))
      else
        let afterLock : Bool × SecState :=
          if operation = PermissionType.write then
            acquireFileLock st relative_path agent_name
          else (true, st)
        match afterLock with
        | (false, st) =>
          (false, recordViolation st now agent_name "file_lock_conflict"
            (operation.value ++ " " ++ file_path) file_path
            "File is locked by another agent")
        | (true, st) =>
          let accessed :=
            if session.files_accessed.contains relative_path then
              session.files_accessed
            else session.files_accessed ++ [relative_path]
          let session := { session with files_accessed := accessed }
          (true,
            { st with active_sessions := setSession st.active_sessions session_id session })

/-- `SecurityFramework.check_permission`: validate the session (auto-ending an
expired one), re-fetch it, and run the gate sequence.  Never raises: every
outcome is a boolean. -/
def check_permission (st : SecState) (now : ℤ) (session_id : String)
    (operation : PermissionType) (file_path : String) (config : AgentConfig) :
    Bool × SecState :=
  match validateSession st now session_id with
  | (false, st1) => (false, st1)
  | (true, st1) =>
    match st1.active_sessions.lookup session_id with
    | none => (false, st1)
    | some session => checkGates st1 now session_id session operation file_path config

/-! ## Concrete fixtures used by the claim theorems -/

/-- An agent executor on which every agent succeeds with an empty payload
(the shape `_execute_agent`'s generic branch returns). -/
def successExec : AgentExec := fun _ _ _ => Except.ok {}

/-- An agent executor on which every agent reports `status: 'error'` (as the
repository's `test_error_handling` patches `_execute_agent` to do). -/
def errorExec : AgentExec := fun _ _ _ =>
  Except.ok { status := "error", error := some "Analysis failed" }

/-- Agent `"A"` succeeds with payload `{score: score}`; everything else
succeeds with an empty payload. -/
def scoreExec (score : ℚ) : AgentExec := fun agent _ _ =>
  if agent = some "A" then
    Except.ok { status := "success", results := Value.dict [("score", Value.num score)] }
  else Except.ok {}

/-- A mixed-mode workflow of two consecutive steps marked `parallel: true`. -/
def mixedDupWorkflow : Workflow :=
  { name := "mixed-dup", execType := "mixed",
    steps := [{ agent := some "a1", parallel := true },
              { agent := some "a2", parallel := true }] }

/-- A sequential workflow with a single agent step. -/
def singleStepWorkflow : Workflow :=
  { name := "single", steps := [{ agent := some "X" }] }

/-- The two-step workflow of the conditional-gating scenario:
`{steps: [{agent: "A", output_key: "r"}, {agent: "B", condition: "r.score<80"}]}`. -/
def conditionWorkflow : Workflow :=
  { name := "cond",
    steps := [{ agent := some "A", output_key := some "r" },
              { agent := some "B", condition := some "r.score<80" }] }

/-- A status callback whose callable raises on the `'initializing'` phase. -/
def raisingCallback : StatusCallback := fun phase =>
  if phase = "initializing" then Except.error "callback exception" else Except.ok ()

/-- A capability configuration granting `read` on every path. -/
def readAllConfig : AgentConfig := { read_patterns := ["*"] }

/-- `readAllConfig` with an operation ceiling of 2. -/
def twoOpsConfig : AgentConfig := { read_patterns := ["*"], max_operations := 2 }

/-- A capability configuration granting `write` on every path. -/
def writeAllConfig : AgentConfig := { write_patterns := ["*"] }

/-- A fresh session row for `agent` with both clocks at 0 and the source's
default ceilings. -/
def freshSession (agent : String) : AgentSession :=
  { agent_name := agent, start_time := 0, operations_count := 0,
    files_accessed := [], last_activity := 0, max_operations := 50, timeout := 300 }

/-- The session row after `check_permission`'s activity refresh: last activity
moved to `now` and the operation counter incremented (lines 99–100 of
`security_framework.py`). -/
def bumpedSession (s : AgentSession) (now : ℤ) : AgentSession :=
  { s with last_activity := now, operations_count := s.operations_count + 1 }

/-- The framework state after the activity refresh has been written back to
the session table. -/
def bumpedState (st : SecState) (sid : String) (s : AgentSession) (now : ℤ) :
    SecState :=
  { st with active_sessions := setSession st.active_sessions sid (bumpedSession s now) }

/-- `freshSession "w"` with an operation ceiling of 2 (the C6 scenario). -/
def twoOpsSession : AgentSession := { freshSession "w" with max_operations := 2 }

/-- A framework state holding one session `"sid"` with ceiling 2. -/
def stOps : SecState := { active_sessions := [("sid", twoOpsSession)] }

/-- A framework state with one session and two locks, for the expiry scenario:
the session's worker holds the lock on `cv/a.md`, another worker the one on
`docs/b.md`. -/
def stExpiry : SecState :=
  { active_sessions := [("se", freshSession "w")],
    file_locks := [("cv/a.md", "w"), ("docs/b.md", "x")] }

/-- A framework state with sessions for workers `A` and `B` where `A` holds
the write lock on `cv/a.md` (the C8 scenario). -/
def stLocked : SecState :=
  { active_sessions := [("sa", freshSession "A"), ("sb", freshSession "B")],
    file_locks := [("cv/a.md", "A")] }

/-- First of three successive reads on the ceiling-2 session. -/
def opsCall1 : Bool × SecState :=
  check_permission stOps 1 "sid" PermissionType.read "cv/a.md" twoOpsConfig

/-- Second successive read. -/
def opsCall2 : Bool × SecState :=
  check_permission opsCall1.2 2 "sid" PermissionType.read "cv/a.md" twoOpsConfig

/-- Third successive read (the one past the ceiling). -/
def opsCall3 : Bool × SecState :=
  check_permission opsCall2.2 3 "sid" PermissionType.read "cv/a.md" twoOpsConfig

/-! ## Helper lemmas -/

theorem lookup_map_update {α : Type} (t : List (String × α)) (k k' : String) (v : α)
    (hne : k' ≠ k) :
    (t.map (fun p => if p.1 = k then (k, v) else p)).lookup k' = t.lookup k' := by
  induction t with
  | nil => rfl
  | cons a t ih =>
    rcases a with ⟨ka, va⟩
    simp only [List.map_cons]
    by_cases hk : ka = k
    · rw [show (if (ka, va).1 = k then (k, v) else (ka, va)) = (k, v) from if_pos hk]
      have h1 : (k' == k) = false := beq_false_of_ne hne
      have h2 : (k' == ka) = false := beq_false_of_ne (hk ▸ hne)
      simp [List.lookup, h1, h2, ih]
    · rw [show (if (ka, va).1 = k then (k, v) else (ka, va)) = (ka, va) from if_neg hk]
      by_cases hk' : k' = ka
      · simp [List.lookup, hk', ih]
      · simp [List.lookup, beq_false_of_ne hk', ih]

theorem lookup_map_update_self {α : Type} (t : List (String × α)) (k : String) (v : α)
    (hs : (t.lookup k).isSome) :
    (t.map (fun p => if p.1 = k then (k, v) else p)).lookup k = some v := by
  induction t with
  | nil => simp [List.lookup] at hs
  | cons a t ih =>
    rcases a with ⟨ka, va⟩
    simp only [List.map_cons]
    by_cases hk : ka = k
    · rw [show (if (ka, va).1 = k then (k, v) else (ka, va)) = (k, v) from if_pos hk]
      simp [List.lookup]
    · rw [show (if (ka, va).1 = k then (k, v) else (ka, va)) = (ka, va) from if_neg hk]
      have h2 : (k == ka) = false := beq_false_of_ne (fun e => hk e.symm)
      simp only [List.lookup, h2] at hs
      simp [List.lookup, h2, ih hs]

theorem lookup_append_single {α : Type} (t : List (String × α)) (k k' : String) (v : α) :
    (t ++ [(k, v)]).lookup k' =
      match t.lookup k' with
      | some w => some w
      | none => if k' = k then some v else none := by
  induction t with
  | nil =>
    by_cases h : k' = k
    · simp [List.lookup, h]
    · simp [List.lookup, beq_false_of_ne h, h]
  | cons a t ih =>
    rcases a with ⟨ka, va⟩
    by_cases hk' : k' = ka
    · simp [List.lookup, hk']
    · simp [List.lookup, beq_false_of_ne hk', ih]

theorem lookup_pyDictSet {α : Type} (d : List (String × α)) (k k' : String) (v : α) :
    (pyDictSet d k v).lookup k' = if k' = k then some v else d.lookup k' := by
  unfold pyDictSet
  by_cases hs : (d.lookup k).isSome
  · by_cases hk : k' = k
    · subst hk; simp [hs, lookup_map_update_self d k' v hs]
    · simp [hs, lookup_map_update d k k' v hk, hk]
  · simp only [hs, if_false]
    rw [if_neg (by simp)]
    rw [lookup_append_single]
    by_cases hk : k' = k
    · subst hk
      have hnone : d.lookup k' = none := by
        cases h : d.lookup k' with
        | none => rfl
        | some w => rw [h] at hs; simp at hs
      simp [hnone]
    · cases h : d.lookup k' with
      | none => simp [hk]
      | some w => simp [hk]

theorem lookup_mem {α : Type} (l : List (String × α)) (k : String) (v : α)
    (h : l.lookup k = some v) : (k, v) ∈ l := by
  induction l with
  | nil => simp [List.lookup] at h
  | cons a t ih =>
    by_cases hk : k = a.1
    · rcases a with ⟨ka, va⟩
      simp only [List.lookup, show (k == ka) = true from beq_iff_eq.mpr hk] at h
      simp only [Option.some.injEq] at h
      subst h; subst hk
      exact List.mem_cons_self _ _
    · simp only [List.lookup, beq_false_of_ne hk] at h
      exact List.mem_cons_of_mem _ (ih h)

theorem lookup_filter_ne_key {α : Type} (l : List (String × α)) (x k : String) :
    (l.filter (fun p => p.1 ≠ x)).lookup k = if k = x then none else l.lookup k := by
  induction l with
  | nil => simp [List.lookup]
  | cons a t ih =>
    rw [List.filter_cons]
    by_cases hx : a.1 = x
    · rw [if_neg (by simp [hx])]
      rw [ih]
      by_cases hk : k = x
      · simp [hk]
      · have hne : (k == a.1) = false := beq_false_of_ne (by rw [hx]; exact hk)
        simp [hk, List.lookup, hne]
    · rw [if_pos (by simp [hx])]
      by_cases hk : k = a.1
      · have hkx : ¬ (k = x) := by rw [hk]; exact hx
        simp [List.lookup, beq_iff_eq.mpr hk, hkx]
      · simp only [List.lookup, beq_false_of_ne hk]
        exact ih

theorem finalStatus_spec (ctx : ExecCtx) :
    (finalStatus ctx = "completed" ↔ ctx.errors = []) ∧
    (finalStatus ctx = "partial_failure" ↔ ctx.errors ≠ [] ∧ ctx.agent_results ≠ []) ∧
    (finalStatus ctx = "failed" ↔ ctx.errors ≠ [] ∧ ctx.agent_results = []) := by
  unfold finalStatus
  by_cases he : ctx.errors.isEmpty <;> by_cases hr : ctx.agent_results.isEmpty <;>
    simp_all [List.isEmpty_iff]

theorem executeWorkflow_noop_ok (exec : AgentExec) (wf : Workflow)
    (context : Option (List (String × Value))) :
    ∃ report, executeWorkflow exec wf noopCallback context = Except.ok report := by
  unfold executeWorkflow noopCallback
  simp only
  repeat' split
  all_goals exact ⟨_, rfl⟩

theorem check_permission_not_found (st : SecState) (now : ℤ) (sid : String)
    (op : PermissionType) (path : String) (cfg : AgentConfig)
    (hs : st.active_sessions.lookup sid = none) :
    check_permission st now sid op path cfg = (false, st) := by
  unfold check_permission validateSession
  rw [hs]

theorem check_permission_expired (st : SecState) (now : ℤ) (sid : String)
    (s : AgentSession) (op : PermissionType) (path : String) (cfg : AgentConfig)
    (hs : st.active_sessions.lookup sid = some s)
    (hexp : now - s.last_activity > s.timeout) :
    check_permission st now sid op path cfg = (false, end_session st sid) := by
  unfold check_permission validateSession
  rw [hs]
  simp only [if_pos hexp]

theorem check_permission_of_valid (st : SecState) (now : ℤ) (sid : String)
    (s : AgentSession) (op : PermissionType) (path : String) (cfg : AgentConfig)
    (hs : st.active_sessions.lookup sid = some s)
    (hexp : ¬ (now - s.last_activity > s.timeout)) :
    check_permission st now sid op path cfg = checkGates st now sid s op path cfg := by
  unfold check_permission validateSession
  rw [hs]
  simp only [if_neg hexp]
  rw [hs]

theorem checkGates_limit (st : SecState) (now : ℤ) (sid : String) (s : AgentSession)
    (op : PermissionType) (path : String) (cfg : AgentConfig)
    (h : s.operations_count + 1 > s.max_operations) :
    checkGates st now sid s op path cfg =
      (false, recordViolation (bumpedState st sid s now) now s.agent_name
        "operation_limit_exceeded" (op.value ++ " " ++ path) path
        ("Exceeded max operations limit: " ++ toString s.max_operations)) := by
  unfold checkGates bumpedState bumpedSession
  rw [if_pos h]

theorem checkGates_traversal (st : SecState) (now : ℤ) (sid : String) (s : AgentSession)
    (op : PermissionType) (path : String) (cfg : AgentConfig)
    (h1 : ¬ (s.operations_count + 1 > s.max_operations))
    (h2 : normalizeRel path = none) :
    checkGates st now sid s op path cfg =
      (false, recordViolation (bumpedState st sid s now) now s.agent_name
        "path_traversal_attempt" (op.value ++ " " ++ path) path
        "Attempted to access file outside project root") := by
  unfold checkGates bumpedState bumpedSession
  rw [if_neg h1]
  simp only [h2]

theorem checkGates_sandbox (st : SecState) (now : ℤ) (sid : String) (s : AgentSession)
    (op : PermissionType) (path rel : String) (cfg : AgentConfig)
    (h1 : ¬ (s.operations_count + 1 > s.max_operations))
    (h2 : normalizeRel path = some rel)
    (h3 : cfg.sandbox_mode = true)
    (h4 : isPathInSandbox rel = false) :
    checkGates st now sid s op path cfg =
      (false, recordViolation (bumpedState st sid s now) now s.agent_name
        "sandbox_violation" (op.value ++ " " ++ path) path
        "Attempted to access file outside sandbox") := by
  unfold checkGates bumpedState bumpedSession
  rw [if_neg h1]
  simp only [h2]
  rw [if_pos (by simp [h3, h4])]

theorem checkGates_pattern (st : SecState) (now : ℤ) (sid : String) (s : AgentSession)
    (op : PermissionType) (path rel : String) (cfg : AgentConfig)
    (h1 : ¬ (s.operations_count + 1 > s.max_operations))
    (h2 : normalizeRel path = some rel)
    (h3 : cfg.sandbox_mode = true → isPathInSandbox rel = true)
    (h4 : matchesPatterns rel (cfg.patternsFor op) = false) :
    checkGates st now sid s op path cfg =
      (false, recordViolation (bumpedState st sid s now) now s.agent_name
        "permission_denied" (op.value ++ " " ++ path) path
        ("No " ++ op.value ++ " permission for this file pattern")) := by
  unfold checkGates bumpedState bumpedSession
  rw [if_neg h1]
  simp only [h2]
  rw [if_neg (by
    cases hc : cfg.sandbox_mode
    · simp [hc]
    · simp [hc, h3 hc])]
  rw [if_pos (by simp [h4])]

theorem checkGates_lock_conflict (st : SecState) (now : ℤ) (sid : String)
    (s : AgentSession) (op : PermissionType) (path rel holder : String) (cfg : AgentConfig)
    (h1 : ¬ (s.operations_count + 1 > s.max_operations))
    (h2 : normalizeRel path = some rel)
    (h3 : cfg.sandbox_mode = true → isPathInSandbox rel = true)
    (h4 : matchesPatterns rel (cfg.patternsFor op) = true)
    (hop : op = PermissionType.write)
    (h5 : st.file_locks.lookup (asPosix rel) = some holder)
    (h6 : holder ≠ s.agent_name) :
    checkGates st now sid s op path cfg =
      (false, recordViolation (bumpedState st sid s now) now s.agent_name
        "file_lock_conflict" (op.value ++ " " ++ path) path
        "File is locked by another agent") := by
  unfold checkGates bumpedState bumpedSession
  rw [if_neg h1]
  simp only [h2]
  rw [if_neg (by
    cases hc : cfg.sandbox_mode
    · simp [hc]
    · simp [hc, h3 hc])]
  rw [if_neg (by simp [h4])]
  rw [if_pos hop]
  unfold acquireFileLock
  simp only [h5]
  rw [if_pos h6]

theorem checkGates_grant (st : SecState) (now : ℤ) (sid : String) (s : AgentSession)
    (op : PermissionType) (path rel : String) (cfg : AgentConfig)
    (h1 : ¬ (s.operations_count + 1 > s.max_operations))
    (h2 : normalizeRel path = some rel)
    (h3 : cfg.sandbox_mode = true → isPathInSandbox rel = true)
    (h4 : matchesPatterns rel (cfg.patternsFor op) = true)
    (h5 : op = PermissionType.write →
      st.file_locks.lookup (asPosix rel) = none ∨
      st.file_locks.lookup (asPosix rel) = some s.agent_name) :
    ∃ fa, checkGates st now sid s op path cfg =
      (true, { st with
        active_sessions := setSession
          (setSession st.active_sessions sid (bumpedSession s now)) sid
          { bumpedSession s now with files_accessed := fa },
        file_locks :=
          if op = PermissionType.write
          then setLock st.file_locks (asPosix rel) s.agent_name
          else st.file_locks }) := by
  refine ⟨if s.files_accessed.contains rel then s.files_accessed
          else s.files_accessed ++ [rel], ?_⟩
  unfold checkGates bumpedSession
  rw [if_neg h1]
  simp only [h2]
  rw [if_neg (by
    cases hc : cfg.sandbox_mode
    · simp [hc]
    · simp [hc, h3 hc])]
  rw [if_neg (by simp [h4])]
  by_cases hop : op = PermissionType.write
  · rw [if_pos hop, if_pos hop]
    unfold acquireFileLock
    rcases h5 hop with h | h
    · simp only [h]
    · simp only [h]
      rw [if_neg (by simp)]
  · rw [if_neg hop, if_neg hop]

theorem acquireFileLock_preserves (st : SecState) (p a : String) :
    ((acquireFileLock st p a).2).active_sessions = st.active_sessions ∧
    ((acquireFileLock st p a).2).violations = st.violations := by
  unfold acquireFileLock
  cases h : st.file_locks.lookup (asPosix p) with
  | none => simp [h]
  | some holder =>
    by_cases he : holder ≠ a
    · simp [h, he]
    · simp [h, he]

theorem release_preserves (st : SecState) (path a : String) :
    ((release_file_lock st path a).2).active_sessions = st.active_sessions ∧
    ((release_file_lock st path a).2).violations = st.violations := by
  unfold release_file_lock
  cases h : st.file_locks.lookup (asPosix path) with
  | none => simp [h]
  | some holder =>
    by_cases he : holder = a
    · simp [h, he]
    · simp [h, if_neg he]

theorem foldRelease_preserves (ks : List String) (st : SecState) (a : String) :
    ((ks.foldl (fun acc path => (release_file_lock acc path a).2) st).active_sessions
        = st.active_sessions) ∧
    ((ks.foldl (fun acc path => (release_file_lock acc path a).2) st).violations
        = st.violations) := by
  induction ks generalizing st with
  | nil => exact ⟨rfl, rfl⟩
  | cons k ks ih =>
    simp only [List.foldl_cons]
    refine ⟨?_, ?_⟩
    · rw [(ih _).1, (release_preserves st k a).1]
    · rw [(ih _).2, (release_preserves st k a).2]

theorem foldRelease_subset (ks : List String) (st : SecState) (a p : String) (h : String)
    (hl : ((ks.foldl (fun acc path => (release_file_lock acc path a).2) st).file_locks.lookup p
        = some h)) : st.file_locks.lookup p = some h := by
  induction ks generalizing st with
  | nil => exact hl
  | cons k ks ih =>
    simp only [List.foldl_cons] at hl
    have step := ih _ hl
    unfold release_file_lock at step
    cases hle : st.file_locks.lookup (asPosix k) with
    | none => simp only [hle] at step; exact step
    | some holder =>
      simp only [hle] at step
      by_cases he : holder = a
      · rw [if_pos he] at step
        dsimp only at step
        rw [lookup_filter_ne_key] at step
        by_cases hp : p = asPosix k
        · simp [hp] at step
        · simp only [if_neg hp] at step
          exact step
      · rw [if_neg he] at step
        exact step

theorem foldRelease_clears (ks : List String) (st : SecState) (a : String)
    (hnormks : ∀ k ∈ ks, asPosix k = k)
    (hks : ∀ p, st.file_locks.lookup p = some a → p ∈ ks) :
    ∀ p, ((ks.foldl (fun acc path => (release_file_lock acc path a).2) st).file_locks.lookup p)
      ≠ some a := by
  induction ks generalizing st with
  | nil =>
    intro p hp
    exact absurd (hks p hp) (List.not_mem_nil p)
  | cons k ks ih =>
    intro p
    simp only [List.foldl_cons]
    refine ih _ (fun k' hk' => hnormks k' (List.mem_cons_of_mem _ hk')) ?_ p
    intro q hq
    have hkk : asPosix k = k := hnormks k (List.mem_cons_self _ _)
    unfold release_file_lock at hq
    rw [hkk] at hq
    cases hle : st.file_locks.lookup k with
    | none =>
      simp only [hle] at hq
      rcases List.mem_cons.mp (hks q hq) with hqk | hqks
      · rw [hqk] at hq
        rw [hq] at hle
        exact absurd hle (by simp)
      · exact hqks
    | some holder =>
      simp only [hle] at hq
      by_cases he : holder = a
      · rw [if_pos he] at hq
        dsimp only at hq
        rw [lookup_filter_ne_key] at hq
        by_cases hqk : q = k
        · simp [hqk] at hq
        · simp only [if_neg hqk] at hq
          rcases List.mem_cons.mp (hks q hq) with hqk2 | hqks
          · exact absurd hqk2 hqk
          · exact hqks
      · rw [if_neg he] at hq
        rcases List.mem_cons.mp (hks q hq) with hqk | hqks
        · rw [hqk] at hq
          rw [hq] at hle
          simp only [Option.some.injEq] at hle
          exact absurd hle.symm he
        · exact hqks

theorem end_session_sessions (st : SecState) (sid : String) :
    (end_session st sid).active_sessions.lookup sid = none ∧
    (∀ sid', sid' ≠ sid →
      (end_session st sid).active_sessions.lookup sid' = st.active_sessions.lookup sid') ∧
    (end_session st sid).violations = st.violations := by
  unfold end_session
  cases hs : st.active_sessions.lookup sid with
  | none => simp [hs]
  | some s =>
    simp only [hs]
    refine ⟨?_, ?_, ?_⟩
    · rw [(foldRelease_preserves _ _ _).1]
      rw [lookup_filter_ne_key]
      simp
    · intro sid' hne
      rw [(foldRelease_preserves _ _ _).1]
      rw [lookup_filter_ne_key]
      simp [hne]
    · exact (foldRelease_preserves _ _ _).2

theorem end_session_clears (st : SecState) (sid : String) (s : AgentSession)
    (hs : st.active_sessions.lookup sid = some s)
    (hnorm : ∀ pr ∈ st.file_locks, asPosix pr.1 = pr.1) :
    ∀ p, (end_session st sid).file_locks.lookup p ≠ some s.agent_name := by
  unfold end_session
  simp only [hs]
  intro p hp
  refine foldRelease_clears _ st s.agent_name ?_ ?_ p hp
  · intro k hk
    rcases List.mem_map.mp hk with ⟨pr, hpr, rfl⟩
    exact hnorm pr (List.mem_of_mem_filter hpr)
  · intro p' hp'
    have hmem := lookup_mem _ _ _ hp'
    exact List.mem_map.mpr ⟨(p', s.agent_name),
      List.mem_filter.mpr ⟨hmem, by simp⟩, rfl⟩

theorem end_session_locks_subset (st : SecState) (sid p : String) (h : String)
    (hl : (end_session st sid).file_locks.lookup p = some h) :
    st.file_locks.lookup p = some h := by
  unfold end_session at hl
  cases hs : st.active_sessions.lookup sid with
  | none => rw [hs] at hl; exact hl
  | some s =>
    simp only [hs] at hl
    exact foldRelease_subset _ st _ _ _ hl

theorem validateSession_true_elim (st : SecState) (now : ℤ) (sid : String)
    (h : (validateSession st now sid).1 = true) :
    ∃ s, st.active_sessions.lookup sid = some s ∧
      ¬ (now - s.last_activity > s.timeout) := by
  unfold validateSession at h
  cases hs : st.active_sessions.lookup sid with
  | none => simp [hs] at h
  | some s =>
    simp only [hs] at h
    by_cases hexp : now - s.last_activity > s.timeout
    · rw [if_pos hexp] at h; simp at h
    · exact ⟨s, rfl, hexp⟩

theorem validateSession_violations (st : SecState) (now : ℤ) (sid : String) :
    ((validateSession st now sid).2).violations = st.violations := by
  unfold validateSession
  cases hs : st.active_sessions.lookup sid with
  | none => rfl
  | some s =>
    simp only [hs]
    by_cases hexp : now - s.last_activity > s.timeout
    · simp only [if_pos hexp]
      exact (end_session_sessions st sid).2.2
    · rw [if_neg hexp]

theorem check_permission_invalid (st : SecState) (now : ℤ) (sid : String)
    (op : PermissionType) (path : String) (cfg : AgentConfig)
    (h : (validateSession st now sid).1 = false) :
    check_permission st now sid op path cfg = (false, (validateSession st now sid).2) := by
  unfold check_permission
  rcases hv : validateSession st now sid with ⟨b, st1⟩
  rw [hv] at h
  simp only at h
  subst h
  rfl

theorem checkGates_master (st : SecState) (now : ℤ) (sid : String) (s : AgentSession)
    (op : PermissionType) (path : String) (cfg : AgentConfig) :
    ∃ fa,
      ((checkGates st now sid s op path cfg).2).active_sessions.lookup sid =
        some { bumpedSession s now with files_accessed := fa } ∧
      ((checkGates st now sid s op path cfg).1 = true →
        ((checkGates st now sid s op path cfg).2).violations = st.violations) ∧
      ((checkGates st now sid s op path cfg).1 = false →
        ∃ v, ((checkGates st now sid s op path cfg).2).violations = st.violations ++ [v]) := by
  by_cases h1 : s.operations_count + 1 > s.max_operations
  · rw [checkGates_limit st now sid s op path cfg h1]
    refine ⟨s.files_accessed, ?_, ?_, ?_⟩
    · simp [recordViolation, bumpedState, setSession, lookup_pyDictSet, bumpedSession]
    · intro h; simp at h
    · intro _; exact ⟨_, rfl⟩
  · cases h2 : normalizeRel path with
    | none =>
      rw [checkGates_traversal st now sid s op path cfg h1 h2]
      refine ⟨s.files_accessed, ?_, ?_, ?_⟩
      · simp [recordViolation, bumpedState, setSession, lookup_pyDictSet, bumpedSession]
      · intro h; simp at h
      · intro _; exact ⟨_, rfl⟩
    | some rel =>
      by_cases hsand : cfg.sandbox_mode = true ∧ isPathInSandbox rel = false
      · rw [checkGates_sandbox st now sid s op path rel cfg h1 h2 hsand.1 hsand.2]
        refine ⟨s.files_accessed, ?_, ?_, ?_⟩
        · simp [recordViolation, bumpedState, setSession, lookup_pyDictSet, bumpedSession]
        · intro h; simp at h
        · intro _; exact ⟨_, rfl⟩
      · have h3 : cfg.sandbox_mode = true → isPathInSandbox rel = true := by
          intro hm
          by_contra hn
          exact hsand ⟨hm, by simpa using hn⟩
        cases h4 : matchesPatterns rel (cfg.patternsFor op) with
        | false =>
          rw [checkGates_pattern st now sid s op path rel cfg h1 h2 h3 h4]
          refine ⟨s.files_accessed, ?_, ?_, ?_⟩
          · simp [recordViolation, bumpedState, setSession, lookup_pyDictSet, bumpedSession]
          · intro h; simp at h
          · intro _; exact ⟨_, rfl⟩
        | true =>
          by_cases hop : op = PermissionType.write
          · cases h5 : st.file_locks.lookup (asPosix rel) with
            | none =>
              rcases checkGates_grant st now sid s op path rel cfg h1 h2 h3 h4
                  (fun _ => Or.inl h5) with ⟨fa, hg⟩
              rw [hg]
              refine ⟨fa, ?_, ?_, ?_⟩
              · simp [setSession, lookup_pyDictSet]
              · intro _; rfl
              · intro h; simp at h
            | some holder =>
              by_cases he : holder = s.agent_name
              · rcases checkGates_grant st now sid s op path rel cfg h1 h2 h3 h4
                    (fun _ => Or.inr (he ▸ h5)) with ⟨fa, hg⟩
                rw [hg]
                refine ⟨fa, ?_, ?_, ?_⟩
                · simp [setSession, lookup_pyDictSet]
                · intro _; rfl
                · intro h; simp at h
              · rw [checkGates_lock_conflict st now sid s op path rel holder cfg
                    h1 h2 h3 h4 hop h5 he]
                refine ⟨s.files_accessed, ?_, ?_, ?_⟩
                · simp [recordViolation, bumpedState, setSession, lookup_pyDictSet,
                    bumpedSession]
                · intro h; simp at h
                · intro _; exact ⟨_, rfl⟩
          · rcases checkGates_grant st now sid s op path rel cfg h1 h2 h3 h4
                (fun h => absurd h hop) with ⟨fa, hg⟩
            rw [hg]
            refine ⟨fa, ?_, ?_, ?_⟩
            · simp [setSession, lookup_pyDictSet]
            · intro _; rfl
            · intro h; simp at h

theorem check_permission_grant (st : SecState) (now : ℤ) (sid : String)
    (s : AgentSession) (op : PermissionType) (path rel : String) (cfg : AgentConfig)
    (hs : st.active_sessions.lookup sid = some s)
    (hexp : ¬ (now - s.last_activity > s.timeout))
    (hcount : ¬ (s.operations_count + 1 > s.max_operations))
    (hr : normalizeRel path = some rel)
    (hsb : cfg.sandbox_mode = true → isPathInSandbox rel = true)
    (hm : matchesPatterns rel (cfg.patternsFor op) = true)
    (hl : op = PermissionType.write →
      st.file_locks.lookup (asPosix rel) = none ∨
      st.file_locks.lookup (asPosix rel) = some s.agent_name) :
    ∃ st' fa,
      check_permission st now sid op path cfg = (true, st') ∧
      st'.active_sessions.lookup sid =
        some { bumpedSession s now with files_accessed := fa } ∧
      st'.violations = st.violations ∧
      st'.file_locks =
        (if op = PermissionType.write
         then setLock st.file_locks (asPosix rel) s.agent_name
         else st.file_locks) := by
  rcases checkGates_grant st now sid s op path rel cfg hcount hr hsb hm hl with ⟨fa, hg⟩
  refine ⟨_, fa, (check_permission_of_valid st now sid s op path cfg hs hexp).trans hg,
    ?_, rfl, rfl⟩
  simp [setSession, lookup_pyDictSet]

theorem check_permission_limit (st : SecState) (now : ℤ) (sid : String)
    (s : AgentSession) (op : PermissionType) (path : String) (cfg : AgentConfig)
    (hs : st.active_sessions.lookup sid = some s)
    (hexp : ¬ (now - s.last_activity > s.timeout))
    (hover : s.operations_count + 1 > s.max_operations) :
    ∃ st' v,
      check_permission st now sid op path cfg = (false, st') ∧
      st'.violations = st.violations ++ [v] ∧
      v.violation_type = "operation_limit_exceeded" ∧
      st'.active_sessions.lookup sid = some (bumpedSession s now) := by
  refine ⟨_, _, (check_permission_of_valid st now sid s op path cfg hs hexp).trans
    (checkGates_limit st now sid s op path cfg hover), rfl, rfl, ?_⟩
  simp [recordViolation, bumpedState, setSession, lookup_pyDictSet]

theorem check_permission_lock_conflict (st : SecState) (now : ℤ) (sid : String)
    (s : AgentSession) (op : PermissionType) (path rel holder : String) (cfg : AgentConfig)
    (hs : st.active_sessions.lookup sid = some s)
    (hexp : ¬ (now - s.last_activity > s.timeout))
    (hcount : ¬ (s.operations_count + 1 > s.max_operations))
    (hr : normalizeRel path = some rel)
    (hsb : cfg.sandbox_mode = true → isPathInSandbox rel = true)
    (hm : matchesPatterns rel (cfg.patternsFor op) = true)
    (hop : op = PermissionType.write)
    (hlock : st.file_locks.lookup (asPosix rel) = some holder)
    (hne : holder ≠ s.agent_name) :
    ∃ st' v,
      check_permission st now sid op path cfg = (false, st') ∧
      st'.file_locks = st.file_locks ∧
      st'.violations = st.violations ++ [v] ∧
      v.violation_type = "file_lock_conflict" := by
  exact ⟨_, _, (check_permission_of_valid st now sid s op path cfg hs hexp).trans
    (checkGates_lock_conflict st now sid s op path rel holder cfg hcount hr hsb hm hop
      hlock hne), rfl, rfl, rfl⟩

/-! ## Claim theorems -/

/-- C1: the claim says mixed execution dispatches a maximal run of consecutive
parallel steps as one batch and resumes past it, each step executing at most
once.  The code intends exactly that (`# Skip the parallel steps we just
executed`, `i = j - 1`), but reassigning the loop variable of `for i, step in
enumerate(steps)` does not skip anything, so the tail of every parallel run is
re-dispatched: on two consecutive parallel steps, step 2 runs twice and the
report holds 3 results, its result appended twice. -/
theorem claim_C1_mixed_reexecutes_parallel_tail :
    ((executeWorkflow successExec mixedDupWorkflow noopCallback none).toOption.map
        (fun report =>
          (report.agent_results.length,
           (report.agent_results.filter (fun r => r.agent = some "a2")).length)) =
      some (3, 2)) := by decide

/-- C2 (counterexample): a sequential run whose only step's agent reports
`status: 'error'` records one error and one (non-success) result; the code
then reports `'partial_failure'` because `agent_results` is non-empty, while
the claim requires `'failed'` whenever no recorded result succeeded. -/
theorem claim_C2_counterexample :
    ((executeWorkflow errorExec singleStepWorkflow noopCallback none).toOption.map
        (fun report =>
          (report.status, report.errors.isEmpty,
           report.agent_results.all (fun r => r.status ≠ "success"),
           report.agent_results.isEmpty)) =
      some ("partial_failure", false, true, false)) := by decide

/-- C3 (counterexample): in the scenario with condition `"r.score<80"` and A
succeeding with payload `{score: 90}`, the claim says B is skipped and the
report has exactly 1 result; in the code, `_extract_value` cannot resolve the
dotted path `r.score`, `float("r.score")` raises, `_should_execute_step`
defaults to executing, and B runs: the report has 2 results. -/
theorem claim_C3_counterexample :
    ((executeWorkflow (scoreExec 90) conditionWorkflow noopCallback none).toOption.map
        (fun report => (report.agent_results.length, report.status)) =
      some (2, "completed")) := by decide

/-- C3 (amended): with condition `"r.score<80"`, condition evaluation raises
and defaults to executing, so B executes regardless of A's score: with payload
`{score: 90}` and with `{score: 70}` alike, the report holds the results of A
and B (2 results) and status `'completed'`. -/
theorem claim_C3_amended :
    ((executeWorkflow (scoreExec 90) conditionWorkflow noopCallback none).toOption.map
        (fun report => (report.agent_results.length, report.status,
          report.agent_results.map (fun r => r.agent))) =
      some (2, "completed", [some "A", some "B"])) ∧
    ((executeWorkflow (scoreExec 70) conditionWorkflow noopCallback none).toOption.map
        (fun report => (report.agent_results.length, report.status,
          report.agent_results.map (fun r => r.agent))) =
      some (2, "completed", [some "A", some "B"])) := by
  constructor <;> decide

/-- C4 (counterexample): the claim says every failing `check_permission` call
appends exactly one `SecurityViolation`, including a failure of gate 1; in the
code a missing (or expired) session returns `false` without recording any
violation — the violations list stays empty. -/
theorem claim_C4_counterexample :
    (check_permission {} 0 "nosess" PermissionType.read "cv/a.md" readAllConfig).1
        = false ∧
    (check_permission {} 0 "nosess" PermissionType.read "cv/a.md" readAllConfig).2.violations
        = [] := by decide

/-- C5 (counterexample): the claim says `release_file_lock` returns `false`
whenever the lock is not currently held by the calling worker, including when
no lock on the path exists; in the code the no-lock case returns `true`
(`return True  # No lock to release`). -/
theorem claim_C5_counterexample :
    (release_file_lock {} "cv/a.md" "worker").1 = true ∧
    ({} : SecState).file_locks.lookup (asPosix "cv/a.md") = none := by decide

/-- C9 (counterexample): the claim says `execute_workflow` never raises for
every workflow and status callback; but the `'initializing'` callback fires
before the `try` block, so a callback that raises there propagates out of
`execute_workflow` uncaught. -/
theorem claim_C9_counterexample :
    executeWorkflow successExec singleStepWorkflow raisingCallback none =
      Except.error "callback exception" := by rfl

/-- C2 (amended): for every run with a recognized execution type and a
non-raising status callback, the report's status is `'completed'` iff no
errors were recorded, `'partial_failure'` iff errors were recorded and at
least one agent result was collected (regardless of the results' own
statuses), and `'failed'` iff errors were recorded and no result was
collected. -/
theorem claim_C2_amended (exec : AgentExec) (wf : Workflow)
    (context : Option (List (String × Value)))
    (hexec : wf.execType = "sequential" ∨ wf.execType = "parallel" ∨
      wf.execType = "mixed") :
    ∃ report, executeWorkflow exec wf noopCallback context = Except.ok report ∧
      (report.status = "completed" ↔ report.errors = []) ∧
      (report.status = "partial_failure" ↔
        report.errors ≠ [] ∧ report.agent_results ≠ []) ∧
      (report.status = "failed" ↔ report.errors ≠ [] ∧ report.agent_results = []) := by
  unfold executeWorkflow noopCallback
  rcases hexec with h | h | h <;> simp [h] <;> exact finalStatus_spec _

/-- Witness for C2 (amended) at the single-error-step run. -/
theorem claim_C2_amended_witness :
    ∃ report, executeWorkflow errorExec singleStepWorkflow noopCallback none =
        Except.ok report ∧
      (report.status = "completed" ↔ report.errors = []) ∧
      (report.status = "partial_failure" ↔
        report.errors ≠ [] ∧ report.agent_results ≠ []) ∧
      (report.status = "failed" ↔ report.errors ≠ [] ∧ report.agent_results = []) :=
  claim_C2_amended errorExec singleStepWorkflow none (Or.inl rfl)

/-- C3 is fully settled by `claim_C3_counterexample` and `claim_C3_amended`
above; C9 (amended): provided the status callback itself never raises,
`execute_workflow` returns a report (never raises) and the callback is purely
observational — the report is identical to the one produced with no
callback. -/
theorem claim_C9_amended (exec : AgentExec) (wf : Workflow) (cb : StatusCallback)
    (context : Option (List (String × Value)))
    (h : ∀ s, cb s = Except.ok ()) :
    executeWorkflow exec wf cb context = executeWorkflow exec wf noopCallback context ∧
    ∃ report, executeWorkflow exec wf cb context = Except.ok report := by
  have heq : executeWorkflow exec wf cb context =
      executeWorkflow exec wf noopCallback context := by
    unfold executeWorkflow noopCallback
    simp only [h]
  rcases executeWorkflow_noop_ok exec wf context with ⟨report, hrep⟩
  exact ⟨heq, report, heq.trans hrep⟩

/-- Witness for C9 (amended) at a concrete run. -/
theorem claim_C9_amended_witness :
    executeWorkflow successExec singleStepWorkflow noopCallback none =
      executeWorkflow successExec singleStepWorkflow noopCallback none ∧
    ∃ report, executeWorkflow successExec singleStepWorkflow noopCallback none =
      Except.ok report :=
  claim_C9_amended successExec singleStepWorkflow noopCallback none (fun _ => rfl)

/-- C4 (amended): `check_permission` evaluates its six gates in the specified
order and short-circuits on the first failure; a call failing gate 1 (missing
or expired session) returns `false` WITHOUT appending any violation; a call
that fails any later gate — its predecessors passing — returns `false` and
appends exactly one violation of that gate's distinct kind
(`operation_limit_exceeded`, `path_traversal_attempt`, `sandbox_violation`,
`permission_denied`, `file_lock_conflict`, in gate order); every denial past
gate 1 appends exactly one violation; and a granted call appends none. -/
theorem claim_C4_amended (st : SecState) (now : ℤ) (sid : String) (op : PermissionType)
    (path : String) (cfg : AgentConfig) :
    ((validateSession st now sid).1 = false →
      check_permission st now sid op path cfg = (false, (validateSession st now sid).2) ∧
      ((check_permission st now sid op path cfg).2).violations = st.violations) ∧
    (∀ s, st.active_sessions.lookup sid = some s →
      ¬ (now - s.last_activity > s.timeout) →
      s.operations_count + 1 > s.max_operations →
      (check_permission st now sid op path cfg).1 = false ∧
      ∃ v, ((check_permission st now sid op path cfg).2).violations =
        st.violations ++ [v] ∧ v.violation_type = "operation_limit_exceeded") ∧
    (∀ s, st.active_sessions.lookup sid = some s →
      ¬ (now - s.last_activity > s.timeout) →
      ¬ (s.operations_count + 1 > s.max_operations) →
      normalizeRel path = none →
      (check_permission st now sid op path cfg).1 = false ∧
      ∃ v, ((check_permission st now sid op path cfg).2).violations =
        st.violations ++ [v] ∧ v.violation_type = "path_traversal_attempt") ∧
    (∀ s rel, st.active_sessions.lookup sid = some s →
      ¬ (now - s.last_activity > s.timeout) →
      ¬ (s.operations_count + 1 > s.max_operations) →
      normalizeRel path = some rel →
      cfg.sandbox_mode = true →
      isPathInSandbox rel = false →
      (check_permission st now sid op path cfg).1 = false ∧
      ∃ v, ((check_permission st now sid op path cfg).2).violations =
        st.violations ++ [v] ∧ v.violation_type = "sandbox_violation") ∧
    (∀ s rel, st.active_sessions.lookup sid = some s →
      ¬ (now - s.last_activity > s.timeout) →
      ¬ (s.operations_count + 1 > s.max_operations) →
      normalizeRel path = some rel →
      (cfg.sandbox_mode = true → isPathInSandbox rel = true) →
      matchesPatterns rel (cfg.patternsFor op) = false →
      (check_permission st now sid op path cfg).1 = false ∧
      ∃ v, ((check_permission st now sid op path cfg).2).violations =
        st.violations ++ [v] ∧ v.violation_type = "permission_denied") ∧
    (∀ s rel holder, st.active_sessions.lookup sid = some s →
      ¬ (now - s.last_activity > s.timeout) →
      ¬ (s.operations_count + 1 > s.max_operations) →
      normalizeRel path = some rel →
      (cfg.sandbox_mode = true → isPathInSandbox rel = true) →
      matchesPatterns rel (cfg.patternsFor op) = true →
      op = PermissionType.write →
      st.file_locks.lookup (asPosix rel) = some holder →
      holder ≠ s.agent_name →
      (check_permission st now sid op path cfg).1 = false ∧
      ∃ v, ((check_permission st now sid op path cfg).2).violations =
        st.violations ++ [v] ∧ v.violation_type = "file_lock_conflict") ∧
    ((validateSession st now sid).1 = true →
      (check_permission st now sid op path cfg).1 = false →
      ∃ v, ((check_permission st now sid op path cfg).2).violations =
        st.violations ++ [v]) ∧
    ((check_permission st now sid op path cfg).1 = true →
      ((check_permission st now sid op path cfg).2).violations = st.violations) := by
  refine ⟨?_, ?_, ?_, ?_, ?_, ?_, ?_, ?_⟩
  · intro hv
    refine ⟨check_permission_invalid st now sid op path cfg hv, ?_⟩
    rw [check_permission_invalid st now sid op path cfg hv]
    exact validateSession_violations st now sid
  · intro s hs hexp hover
    rw [check_permission_of_valid st now sid s op path cfg hs hexp]
    rw [checkGates_limit st now sid s op path cfg hover]
    exact ⟨rfl, _, rfl, rfl⟩
  · intro s hs hexp hcount hrel
    rw [check_permission_of_valid st now sid s op path cfg hs hexp]
    rw [checkGates_traversal st now sid s op path cfg hcount hrel]
    exact ⟨rfl, _, rfl, rfl⟩
  · intro s rel hs hexp hcount hrel hmode hsand
    rw [check_permission_of_valid st now sid s op path cfg hs hexp]
    rw [checkGates_sandbox st now sid s op path rel cfg hcount hrel hmode hsand]
    exact ⟨rfl, _, rfl, rfl⟩
  · intro s rel hs hexp hcount hrel hsand hpat
    rw [check_permission_of_valid st now sid s op path cfg hs hexp]
    rw [checkGates_pattern st now sid s op path rel cfg hcount hrel hsand hpat]
    exact ⟨rfl, _, rfl, rfl⟩
  · intro s rel holder hs hexp hcount hrel hsand hpat hop hlock hne
    rw [check_permission_of_valid st now sid s op path cfg hs hexp]
    rw [checkGates_lock_conflict st now sid s op path rel holder cfg hcount hrel hsand
      hpat hop hlock hne]
    exact ⟨rfl, _, rfl, rfl⟩
  · intro hv hdeny
    rcases validateSession_true_elim st now sid hv with ⟨s, hs, hexp⟩
    rw [check_permission_of_valid st now sid s op path cfg hs hexp] at hdeny ⊢
    exact (checkGates_master st now sid s op path cfg).choose_spec.2.2 hdeny
  · intro hgrant
    by_cases hv : (validateSession st now sid).1 = true
    · rcases validateSession_true_elim st now sid hv with ⟨s, hs, hexp⟩
      rw [check_permission_of_valid st now sid s op path cfg hs hexp] at hgrant ⊢
      exact (checkGates_master st now sid s op path cfg).choose_spec.2.1 hgrant
    · rw [check_permission_invalid st now sid op path cfg (by simpa using hv)] at hgrant
      simp at hgrant

/-- Witness for C4 (amended): the sandbox gate at a concrete state. -/
theorem claim_C4_amended_witness :
    (check_permission (create_session {} 0 "sa" "w" readAllConfig) 1 "sa"
        PermissionType.read "secret/a.md" readAllConfig).1 = false ∧
    ∃ v, ((check_permission (create_session {} 0 "sa" "w" readAllConfig) 1 "sa"
        PermissionType.read "secret/a.md" readAllConfig).2).violations =
      (create_session {} 0 "sa" "w" readAllConfig).violations ++ [v] ∧
      v.violation_type = "sandbox_violation" :=
  (claim_C4_amended (create_session {} 0 "sa" "w" readAllConfig) 1 "sa"
      PermissionType.read "secret/a.md" readAllConfig).2.2.2.1
    (freshSession "w") "secret/a.md" (by decide) (by decide) (by decide) (by decide)
    (by decide) (by decide)

/-- C5 (amended): `release_file_lock` returns `true` and removes the entry
when the lock is held by the calling worker; returns `false` and leaves the
table unchanged when the lock is held by a different worker; and returns
`true` leaving the table unchanged when no lock on the path exists at all
(the source's `return True  # No lock to release`). -/
theorem claim_C5_amended (st : SecState) (path worker : String) :
    (st.file_locks.lookup (asPosix path) = none →
      release_file_lock st path worker = (true, st)) ∧
    (st.file_locks.lookup (asPosix path) = some worker →
      release_file_lock st path worker =
        (true, { st with file_locks :=
          st.file_locks.filter (fun p => p.1 ≠ asPosix path) })) ∧
    (∀ holder, st.file_locks.lookup (asPosix path) = some holder → holder ≠ worker →
      release_file_lock st path worker = (false, st)) := by
  refine ⟨?_, ?_, ?_⟩
  · intro h
    unfold release_file_lock
    simp only [h]
  · intro h
    unfold release_file_lock
    simp only [h]
    simp
  · intro holder h hne
    unfold release_file_lock
    simp only [h]
    rw [if_neg hne]

/-- Witness for C5 (amended): a release attempt against a lock held by a
different worker refuses and leaves the state unchanged. -/
theorem claim_C5_amended_witness :
    release_file_lock stLocked "cv/a.md" "B" = (false, stLocked) :=
  (claim_C5_amended stLocked "cv/a.md" "B").2.2 "A" (by decide) (by decide)

/-- C6: on a session with `max_operations = 2` whose timeout never elapses,
three successive `check_permission` calls whose other gates pass return
`true, true, false`; the third appends a violation of kind
`operation_limit_exceeded`; and the operation counter reads 1, 2, 3 after the
respective calls — the counter is incremented on each call and the call is
rejected exactly when the incremented counter exceeds the ceiling. -/
theorem claim_C6 (st : SecState) (sid : String) (s : AgentSession) (cfg : AgentConfig)
    (op1 op2 op3 : PermissionType) (p1 p2 p3 rel1 rel2 : String) (n1 n2 n3 : ℤ)
    (hs : st.active_sessions.lookup sid = some s)
    (hmax : s.max_operations = 2)
    (hcount : s.operations_count = 0)
    (ht1 : ¬ (n1 - s.last_activity > s.timeout))
    (ht2 : ¬ (n2 - n1 > s.timeout))
    (ht3 : ¬ (n3 - n2 > s.timeout))
    (hr1 : normalizeRel p1 = some rel1)
    (hsb1 : cfg.sandbox_mode = true → isPathInSandbox rel1 = true)
    (hm1 : matchesPatterns rel1 (cfg.patternsFor op1) = true)
    (hl1 : op1 = PermissionType.write →
      st.file_locks.lookup (asPosix rel1) = none ∨
      st.file_locks.lookup (asPosix rel1) = some s.agent_name)
    (hr2 : normalizeRel p2 = some rel2)
    (hsb2 : cfg.sandbox_mode = true → isPathInSandbox rel2 = true)
    (hm2 : matchesPatterns rel2 (cfg.patternsFor op2) = true)
    (hl2 : op2 = PermissionType.write →
      ((check_permission st n1 sid op1 p1 cfg).2).file_locks.lookup (asPosix rel2) = none ∨
      ((check_permission st n1 sid op1 p1 cfg).2).file_locks.lookup (asPosix rel2) =
        some s.agent_name) :
    (check_permission st n1 sid op1 p1 cfg).1 = true ∧
    (check_permission ((check_permission st n1 sid op1 p1 cfg).2) n2 sid op2 p2 cfg).1
      = true ∧
    (check_permission
        ((check_permission ((check_permission st n1 sid op1 p1 cfg).2) n2 sid op2 p2 cfg).2)
        n3 sid op3 p3 cfg).1 = false ∧
    (∃ v, (check_permission
        ((check_permission ((check_permission st n1 sid op1 p1 cfg).2) n2 sid op2 p2 cfg).2)
        n3 sid op3 p3 cfg).2.violations =
      ((check_permission ((check_permission st n1 sid op1 p1 cfg).2) n2 sid op2 p2 cfg).2).violations
        ++ [v] ∧ v.violation_type = "operation_limit_exceeded") ∧
    (∃ s1, ((check_permission st n1 sid op1 p1 cfg).2).active_sessions.lookup sid = some s1
      ∧ s1.operations_count = 1) ∧
    (∃ s2, ((check_permission ((check_permission st n1 sid op1 p1 cfg).2) n2 sid op2 p2 cfg).2).active_sessions.lookup sid
      = some s2 ∧ s2.operations_count = 2) ∧
    (∃ s3, ((check_permission
        ((check_permission ((check_permission st n1 sid op1 p1 cfg).2) n2 sid op2 p2 cfg).2)
        n3 sid op3 p3 cfg).2).active_sessions.lookup sid = some s3 ∧
      s3.operations_count = 3) := by
  have hcount1 : ¬ (s.operations_count + 1 > s.max_operations) := by
    rw [hmax, hcount]; omega
  rcases check_permission_grant st n1 sid s op1 p1 rel1 cfg hs ht1 hcount1 hr1 hsb1 hm1 hl1
    with ⟨st1, fa1, hc1, hlook1, _, _⟩
  rw [hc1] at hl2 ⊢
  have ht2' : ¬ (n2 - ({ bumpedSession s n1 with files_accessed := fa1 }).last_activity >
      ({ bumpedSession s n1 with files_accessed := fa1 }).timeout) := by
    simpa [bumpedSession] using ht2
  have hcount2 : ¬ (({ bumpedSession s n1 with files_accessed := fa1 }).operations_count + 1
      > ({ bumpedSession s n1 with files_accessed := fa1 }).max_operations) := by
    simp [bumpedSession, hcount, hmax]
  rcases check_permission_grant st1 n2 sid _ op2 p2 rel2 cfg hlook1 ht2' hcount2 hr2 hsb2
    hm2 (fun hw => hl2 hw) with ⟨st2, fa2, hc2, hlook2, _, _⟩
  rw [hc2]
  have ht3' : ¬ (n3 - ({ bumpedSession { bumpedSession s n1 with files_accessed := fa1 } n2
        with files_accessed := fa2 }).last_activity >
      ({ bumpedSession { bumpedSession s n1 with files_accessed := fa1 } n2
        with files_accessed := fa2 }).timeout) := by
    simpa [bumpedSession] using ht3
  have hover : ({ bumpedSession { bumpedSession s n1 with files_accessed := fa1 } n2
        with files_accessed := fa2 }).operations_count + 1 >
      ({ bumpedSession { bumpedSession s n1 with files_accessed := fa1 } n2
        with files_accessed := fa2 }).max_operations := by
    simp [bumpedSession, hcount, hmax]
  rcases check_permission_limit st2 n3 sid _ op3 p3 cfg hlook2 ht3' hover
    with ⟨st3, v, hc3, hviol, hvtype, hlook3⟩
  rw [hc3]
  refine ⟨rfl, rfl, rfl, ⟨v, hviol, hvtype⟩,
    ⟨_, hlook1, by simp [bumpedSession, hcount]⟩,
    ⟨_, hlook2, by simp [bumpedSession, hcount]⟩,
    ⟨_, hlook3, by simp [bumpedSession, hcount]⟩⟩

/-- Witness for C6 at the concrete ceiling-2 state. -/
theorem claim_C6_witness :
    opsCall1.1 = true ∧
    opsCall2.1 = true ∧
    opsCall3.1 = false ∧
    (∃ v, opsCall3.2.violations = opsCall2.2.violations ++ [v] ∧
      v.violation_type = "operation_limit_exceeded") ∧
    (∃ s1, opsCall1.2.active_sessions.lookup "sid" = some s1 ∧
      s1.operations_count = 1) ∧
    (∃ s2, opsCall2.2.active_sessions.lookup "sid" = some s2 ∧
      s2.operations_count = 2) ∧
    (∃ s3, opsCall3.2.active_sessions.lookup "sid" = some s3 ∧
      s3.operations_count = 3) :=
  claim_C6 stOps "sid" twoOpsSession twoOpsConfig
    PermissionType.read PermissionType.read PermissionType.read
    "cv/a.md" "cv/a.md" "cv/a.md" "cv/a.md" "cv/a.md" 1 2 3
    (by decide) (by decide) (by decide) (by decide) (by decide) (by decide)
    (by decide) (by decide) (by decide) (by decide) (by decide) (by decide)
    (by decide) (by decide)

/-- C7: on a session whose inactivity exceeds its timeout, the next
`check_permission` call returns `false` with the session auto-ended; the
session is gone from the table; no lock held by that session's worker
remains (for the reachable states, whose lock keys are normalized); and any
`check_permission` call on a state lacking the session id returns `false`
leaving the state unchanged — so no later call on that id can return
`true`. -/
theorem claim_C7 (st : SecState) (now : ℤ) (sid : String) (s : AgentSession)
    (op : PermissionType) (path : String) (cfg : AgentConfig)
    (hs : st.active_sessions.lookup sid = some s)
    (hexp : now - s.last_activity > s.timeout)
    (hnorm : ∀ pr ∈ st.file_locks, asPosix pr.1 = pr.1) :
    check_permission st now sid op path cfg = (false, end_session st sid) ∧
    (end_session st sid).active_sessions.lookup sid = none ∧
    (∀ p, (end_session st sid).file_locks.lookup p ≠ some s.agent_name) ∧
    (∀ st' now' op' path' cfg', st'.active_sessions.lookup sid = none →
      check_permission st' now' sid op' path' cfg' = (false, st')) := by
  refine ⟨check_permission_expired st now sid s op path cfg hs hexp,
    (end_session_sessions st sid).1,
    end_session_clears st sid s hs hnorm,
    fun st' now' op' path' cfg' h =>
      check_permission_not_found st' now' sid op' path' cfg' h⟩

/-- Witness for C7 at the concrete expired-session state. -/
theorem claim_C7_witness :
    check_permission stExpiry 301 "se" PermissionType.read "cv/a.md" readAllConfig =
      (false, end_session stExpiry "se") ∧
    (end_session stExpiry "se").active_sessions.lookup "se" = none ∧
    (end_session stExpiry "se").file_locks.lookup "cv/a.md" ≠ some "w" ∧
    check_permission (end_session stExpiry "se") 400 "se" PermissionType.read "cv/a.md"
      readAllConfig = (false, end_session stExpiry "se") := by
  have h := claim_C7 stExpiry 301 "se" (freshSession "w") PermissionType.read "cv/a.md"
    readAllConfig (by decide) (by decide) (by decide)
  exact ⟨h.1, h.2.1, h.2.2.1 "cv/a.md", h.2.2.2 _ 400 _ _ _ h.2.1⟩

/-- C8: write locks are exclusive per path — while worker `A` holds the lock,
an otherwise-allowed write by a session of a different worker `B` is refused
with one `file_lock_conflict` violation and the lock table unchanged; after
`A`'s session is ended, or after `A` explicitly releases the lock, the same
request by `B` is granted and `B` becomes the holder. -/
theorem claim_C8 (st : SecState) (now now2 : ℤ) (sidB : String) (sB : AgentSession)
    (path rel A : String) (cfg : AgentConfig)
    (hsB : st.active_sessions.lookup sidB = some sB)
    (hexp : ¬ (now - sB.last_activity > sB.timeout))
    (hcount : ¬ (sB.operations_count + 1 > sB.max_operations))
    (hr : normalizeRel path = some rel)
    (hsb : cfg.sandbox_mode = true → isPathInSandbox rel = true)
    (hm : matchesPatterns rel (cfg.patternsFor PermissionType.write) = true)
    (hlock : st.file_locks.lookup (asPosix rel) = some A)
    (hne : A ≠ sB.agent_name) :
    ((check_permission st now sidB PermissionType.write path cfg).1 = false ∧
     ((check_permission st now sidB PermissionType.write path cfg).2).file_locks
        = st.file_locks ∧
     ∃ v, ((check_permission st now sidB PermissionType.write path cfg).2).violations
        = st.violations ++ [v] ∧ v.violation_type = "file_lock_conflict") ∧
    (∀ sidA sA, st.active_sessions.lookup sidA = some sA → sA.agent_name = A →
      sidB ≠ sidA →
      (∀ pr ∈ st.file_locks, asPosix pr.1 = pr.1) →
      ¬ (now2 - sB.last_activity > sB.timeout) →
      (check_permission (end_session st sidA) now2 sidB PermissionType.write path cfg).1
        = true ∧
      ((check_permission (end_session st sidA) now2 sidB
          PermissionType.write path cfg).2).file_locks.lookup (asPosix rel)
        = some sB.agent_name) ∧
    (∀ pathA, asPosix pathA = asPosix rel →
      ¬ (now2 - sB.last_activity > sB.timeout) →
      (check_permission ((release_file_lock st pathA A).2) now2 sidB
          PermissionType.write path cfg).1 = true ∧
      ((check_permission ((release_file_lock st pathA A).2) now2 sidB
          PermissionType.write path cfg).2).file_locks.lookup (asPosix rel)
        = some sB.agent_name) := by
  refine ⟨?_, ?_, ?_⟩
  · rcases check_permission_lock_conflict st now sidB sB PermissionType.write path rel A cfg
      hsB hexp hcount hr hsb hm rfl hlock hne with ⟨st', v, hc, hfl, hv, hvt⟩
    rw [hc]
    exact ⟨rfl, hfl, v, hv, hvt⟩
  · intro sidA sA hsA hA hBA hnorm hexp2
    have hlookB2 : (end_session st sidA).active_sessions.lookup sidB = some sB := by
      rw [(end_session_sessions st sidA).2.1 sidB hBA]
      exact hsB
    have hlockfree : (end_session st sidA).file_locks.lookup (asPosix rel) = none := by
      cases h : (end_session st sidA).file_locks.lookup (asPosix rel) with
      | none => rfl
      | some h' =>
        have hsub := end_session_locks_subset st sidA (asPosix rel) h' h
        rw [hlock] at hsub
        have hA' : h' = A := by simpa using hsub.symm
        subst hA'
        have := end_session_clears st sidA sA hsA hnorm (asPosix rel)
        rw [hA] at this
        exact absurd h this
    rcases check_permission_grant (end_session st sidA) now2 sidB sB
        PermissionType.write path rel cfg hlookB2 hexp2 hcount hr hsb hm
        (fun _ => Or.inl hlockfree) with ⟨st2, fa, hc2, _, _, hfl2⟩
    rw [hc2]
    refine ⟨rfl, ?_⟩
    rw [hfl2, if_pos rfl]
    simp [setLock, lookup_pyDictSet]
  · intro pathA hApath hexp2
    have hrel : st.file_locks.lookup (asPosix pathA) = some A := by
      rw [hApath]; exact hlock
    have hrelease := (claim_C5_amended st pathA A).2.1 hrel
    rw [hrelease]
    have hlookB3 : ({ st with file_locks := st.file_locks.filter (fun p => p.1 ≠ asPosix pathA) } : SecState).active_sessions.lookup sidB = some sB := hsB
    have hlockfree : ({ st with file_locks := st.file_locks.filter (fun p => p.1 ≠ asPosix pathA) } : SecState).file_locks.lookup (asPosix rel) = none := by
      show (st.file_locks.filter (fun p => p.1 ≠ asPosix pathA)).lookup (asPosix rel) = none
      rw [lookup_filter_ne_key]
      rw [if_pos hApath.symm]
    rcases check_permission_grant _ now2 sidB sB PermissionType.write path rel cfg
        hlookB3 hexp2 hcount hr hsb hm (fun _ => Or.inl hlockfree)
      with ⟨st3, fa, hc3, _, _, hfl3⟩
    rw [hc3]
    refine ⟨rfl, ?_⟩
    rw [hfl3, if_pos rfl]
    simp [setLock, lookup_pyDictSet]

/-- Witness for C8 at the concrete two-worker state. -/
theorem claim_C8_witness :
    (check_permission stLocked 1 "sb" PermissionType.write "cv/a.md" writeAllConfig).1
      = false ∧
    ((check_permission stLocked 1 "sb" PermissionType.write "cv/a.md"
        writeAllConfig).2).file_locks = stLocked.file_locks ∧
    (∃ v, ((check_permission stLocked 1 "sb" PermissionType.write "cv/a.md"
        writeAllConfig).2).violations = stLocked.violations ++ [v] ∧
      v.violation_type = "file_lock_conflict") ∧
    (check_permission (end_session stLocked "sa") 2 "sb" PermissionType.write "cv/a.md"
        writeAllConfig).1 = true ∧
    ((check_permission (end_session stLocked "sa") 2 "sb" PermissionType.write "cv/a.md"
        writeAllConfig).2).file_locks.lookup (asPosix "cv/a.md") = some "B" ∧
    (check_permission ((release_file_lock stLocked "cv/a.md" "A").2) 2 "sb"
        PermissionType.write "cv/a.md" writeAllConfig).1 = true ∧
    ((check_permission ((release_file_lock stLocked "cv/a.md" "A").2) 2 "sb"
        PermissionType.write "cv/a.md" writeAllConfig).2).file_locks.lookup
      (asPosix "cv/a.md") = some "B" := by
  have h := claim_C8 stLocked 1 2 "sb" (freshSession "B") "cv/a.md" "cv/a.md" "A"
    writeAllConfig (by decide) (by decide) (by decide) (by decide) (by decide)
    (by decide) (by decide) (by decide)
  have h2 := h.2.1 "sa" (freshSession "A") (by decide) (by decide) (by decide)
    (by decide) (by decide)
  have h3 := h.2.2 "cv/a.md" (by decide) (by decide)
  exact ⟨h.1.1, h.1.2.1, h.1.2.2, h2.1, h2.2, h3.1, h3.2⟩

/-- C10: on every `check_permission` call whose session exists and has not
expired, the stored session's operation counter is incremented and its
last-activity time refreshed to the call instant, regardless of whether the
call is granted or denied — denied requests still consume budget and postpone
expiry. -/
theorem claim_C10 (st : SecState) (now : ℤ) (sid : String) (op : PermissionType)
    (path : String) (cfg : AgentConfig) (s : AgentSession)
    (hs : st.active_sessions.lookup sid = some s)
    (hexp : ¬ (now - s.last_activity > s.timeout)) :
    ∃ fa, ((check_permission st now sid op path cfg).2).active_sessions.lookup sid =
      some { s with last_activity := now, operations_count := s.operations_count + 1, files_accessed := fa } := by
  rw [check_permission_of_valid st now sid s op path cfg hs hexp]
  rcases checkGates_master st now sid s op path cfg with ⟨fa, hfa, _⟩
  exact ⟨fa, hfa⟩

/-- Witness for C10: a denied write (no write permission in the config) still
bumps the counter and refreshes the activity clock. -/
theorem claim_C10_witness :
    ∃ fa, ((check_permission stOps 5 "sid" PermissionType.write ".git/config"
        twoOpsConfig).2).active_sessions.lookup "sid" =
      some { twoOpsSession with last_activity := 5, operations_count := twoOpsSession.operations_count + 1, files_accessed := fa } :=
  claim_C10 stOps 5 "sid" PermissionType.write ".git/config" twoOpsConfig twoOpsSession
    (by decide) (by decide)

end TeamResumes
